import Mathlib

/-!
# Verification of the Mechatronics BI data pipeline (`src/app.py`)

Shallow embedding of the data-cleaning and linking core of the dashboard:
the deep cleaner `clean` inside `load_data_v10`, the column resolver
`get_col`, the Project Explorer BOM melt/filter/merge, the KPI percentage
guards, and the sheet-loading error shape.

Text values are modelled as lists of Unicode code points (`List Nat`);
the case/whitespace transforms implement the ASCII semantics of the
Python string methods used by the code (`str.strip`, `str.upper`,
`str.lower`, `str.title`), which agree with Python on all ASCII data.
Tables are column-major: a `Column` is a header plus its cell list, a
data frame is a `List Column`.
-/

namespace MechBI

/-- ASCII whitespace, the characters stripped by `str.strip()`. -/
def isWs (c : Nat) : Bool := c == 32 || (9 ≤ c && c ≤ 13)

/-- Uppercase ASCII letter. -/
def isUpC (c : Nat) : Bool := 65 ≤ c && c ≤ 90

/-- Lowercase ASCII letter. -/
def isLoC (c : Nat) : Bool := 97 ≤ c && c ≤ 122

/-- ASCII letter (the word characters of `str.title()`). -/
def isAl (c : Nat) : Bool := isUpC c || isLoC c

/-- Lowercase a code point (`str.lower` on ASCII). -/
def loC (c : Nat) : Nat := if isUpC c then c + 32 else c

/-- Uppercase a code point (`str.upper` on ASCII). -/
def upC (c : Nat) : Nat := if isLoC c then c - 32 else c

/-- Code points of a string literal, for writing concrete table values. -/
def S (s : String) : List Nat := s.data.map Char.toNat

/-- Whether `p` occurs at the front of `s` (substring helper). -/
def hasPre : List Nat → List Nat → Bool
  | [], _ => true
  | _ :: _, [] => false
  | a :: p, b :: s => a == b && hasPre p s

/-- Whether `p` occurs contiguously inside `s`: the `in` operator of
Python on strings. -/
def hasSub (p : List Nat) (s : List Nat) : Bool :=
  match s with
  | [] => p.isEmpty
  | _ :: r => hasPre p s || hasSub p r

/-- `str.lower()`. -/
def lowerStr (s : List Nat) : List Nat := s.map loC

/-- `str.upper()`. -/
def upperStr (s : List Nat) : List Nat := s.map upC

/-- Worker for `str.title()`: the Boolean state records whether the
previous character was a letter (i.e. we are inside a word). -/
def titleGo : Bool → List Nat → List Nat
  | _, [] => []
  | b, c :: r =>
    (if isAl c then (if b then loC c else upC c) else c) :: titleGo (isAl c) r

/-- `str.title()`: first letter of each letter-run uppercased, the rest
lowercased. -/
def titleStr (s : List Nat) : List Nat := titleGo false s

/-- Invariant of `str.title()` output: no letter is immediately followed
by an uppercase letter (used to show title-cased text never equals one of
the all-uppercase brand alias keys). -/
def okPairs : List Nat → Bool
  | [] => true
  | [_] => true
  | a :: b :: r => (!(isAl a) || !(isUpC b)) && okPairs (b :: r)

/-- `str.strip()`: drop whitespace from both ends. -/
def strip (s : List Nat) : List Nat :=
  ((s.dropWhile isWs).reverse.dropWhile isWs).reverse

/-- `str.replace(r'\.0$', '', regex=True)`: remove one trailing `".0"`
(code points `[46, 48]`). -/
def drop0 (s : List Nat) : List Nat :=
  if 2 ≤ s.length ∧ s.drop (s.length - 2) = [46, 48] then
    s.take (s.length - 2)
  else s

/-- The junk alternatives of the regex
`(?i)^(nan|none|unknown|undefined|null|nat|0)$`, in lowercase. -/
def junkTokens : List (List Nat) :=
  [S "nan", S "none", S "unknown", S "undefined", S "null", S "nat", S "0"]

/-- The sentinel dash. -/
def dash : List Nat := S "-"

/-- Step 3 of the cleaner: a whole-string, case-insensitive junk match is
replaced by the sentinel dash. -/
def junkRep (s : List Nat) : List Nat :=
  if junkTokens.contains (lowerStr s) then dash else s

/-- `"link" in col.lower()`: the column-skip test of the cleaner. -/
def isLinkCol (h : List Nat) : Bool := hasSub (S "link") (lowerStr h)

/-- `any(x in col.lower() for x in ['no','id','code','mfg'])`. -/
def isIdCol (h : List Nat) : Bool :=
  [S "no", S "id", S "code", S "mfg"].any
    fun p => hasSub p (lowerStr h)

/-- Step 4 of the cleaner: uppercase ID-like columns, title-case the rest. -/
def caseStep (h s : List Nat) : List Nat :=
  if isIdCol h then upperStr s else titleStr s

/-- Steps 1-4 of the cleaner applied to one cell of a non-link column:
strip, fix float strings, replace junk, standardize case. -/
def cellClean (h s : List Nat) : List Nat := caseStep h (junkRep (drop0 (strip s)))

/-- The fixed `brand_map` of step 5. -/
def brand_map : List (List Nat × List Nat) :=
  [(S "DFROBOT", S "DFRobot"), (S "DFR", S "DFRobot"),
   (S "ADAFRUIT", S "Adafruit"), (S "POLOLU", S "Pololu"),
   (S "SPARKFUN", S "SparkFun"), (S "ARDUINO", S "Arduino"),
   (S "ESPRESSIF", S "Espressif"), (S "SEEED", S "Seeed Studio")]

/-- Lookup of a cell value among the alias keys of `brand_map`
(`Series.replace` with a dict is an exact full-value match). -/
def brandLookup (v : List Nat) : Option (List Nat) :=
  (brand_map.find? fun p => p.1 == v).map fun p => p.2

/-- `df[c].replace(brand_map)` on one cell. -/
def brandRep (v : List Nat) : List Nat := (brandLookup v).getD v

/-- `c.lower() in ["mfg", "manufacturer", "brand"]`. -/
def brandNames : List (List Nat) := [S "mfg", S "manufacturer", S "brand"]

/-- Whether the brand-standardization loop touches this column. -/
def isBrandName (h : List Nat) : Bool := brandNames.contains (lowerStr h)

/-- One column of a data frame: header plus cells (column-major model). -/
structure Column where
  header : List Nat
  cells : List (List Nat)
deriving DecidableEq, Repr

/-- `df.empty`: no columns, or a column with no rows (in pandas all
columns share the row index, so any empty column means zero rows). -/
def dfEmpty (df : List Column) : Bool := df.isEmpty || df.any fun c => c.cells.isEmpty

/-- The per-column loop of the cleaner: link columns are skipped, the
others get `cellClean` on every cell. -/
def colClean (c : Column) : Column :=
  if isLinkCol c.header then c else ⟨c.header, c.cells.map (cellClean c.header)⟩

/-- The brand-standardization loop (step 5): applies `brandRep` to the
cells of columns named exactly mfg/manufacturer/brand. -/
def brandCol (c : Column) : Column :=
  if isBrandName c.header then ⟨c.header, c.cells.map brandRep⟩ else c

/-- The deep cleaner `clean(df)` of `load_data_v10`: empty frames pass
through; otherwise the per-column loop runs first and the brand loop
second (the two source loops touch disjoint cell positions column by
column, so they compose per column). -/
def clean (df : List Column) : List Column :=
  if dfEmpty df then df else df.map fun c => brandCol (colClean c)

/-- The complete transform `clean` applies to one cell of a column with
header `h` (for stating per-cell properties of `clean`). -/
def cellT (h s : List Nat) : List Nat :=
  if isLinkCol h then s
  else if isBrandName h then brandRep (cellClean h s) else cellClean h s

/-- The default column used with `List.getD` in position-indexed
statements. -/
def defCol : Column := ⟨[], []⟩

/-! ## Column resolver (`get_col`) -/

/-- `get_col(df, candidates)`: `None` for an absent or empty frame,
otherwise the first candidate whose lowercasing is a key of
`{c.lower(): c for c in df.columns}` (the dict comprehension keeps the
last column on a lowercase collision, hence the reversed search),
returned with the table's original header casing. -/
def get_col (df : Option (List Column)) (cands : List (List Nat)) : Option (List Nat) :=
  match df with
  | none => none
  | some t =>
    if dfEmpty t then none
    else cands.findSome? fun cand =>
      (t.reverse.find? fun c => lowerStr c.header == lowerStr cand).map
        fun c => c.header

/-! ## Project Explorer BOM linker -/

/-- Key normalization of the BOM linker:
`.astype(str).str.strip().str.upper()` then `.str.replace(r'\.0$', '')`. -/
def bomNormalize (v : List Nat) : List Nat := drop0 (upperStr (strip v))

/-- The denylist of the junk filter
`bom[~bom["MfgNo"].isin(["-","UNKNOWN","NAN","NONE","NAT","0"])]`. -/
def bomDeny : List (List Nat) :=
  [S "-", S "UNKNOWN", S "NAN", S "NONE", S "NAT", S "0"]

/-- Melt of the selected project row followed by `dropna()`: a slot cell
is `none` when the source cell is a missing value (pandas `NaN`), which
`dropna` removes before any string coercion. -/
def meltSlots (slots : List (Option (List Nat))) : List (List Nat) :=
  slots.filterMap id

/-- Melt, normalize and junk-filter the component slots of a project row
(lines 472-480 of `app.py`): two successive filters, length > 1 and not
in the denylist. -/
def bomKeys (slots : List (Option (List Nat))) : List (List Nat) :=
  (((meltSlots slots).map bomNormalize).filter fun v => 1 < v.length).filter
    fun v => !(bomDeny.contains v)

/-- A row of the cleaned Component table, split as join key (the resolved
manufacturer-number column) plus the remaining attribute cells. -/
structure CompRow where
  key : List Nat
  attrs : List (List Nat)
deriving DecidableEq, Repr

/-- `pd.merge(bom, df_components, left_on="MfgNo", right_on=c_mfg_no,
how="left")`: every BOM key produces one output row per matching
Component row, or a single row with all attributes missing (`NaN`,
modelled `none`) when no Component row matches; `nAttr` is the number of
Component attribute columns. -/
def mergeLeft (keys : List (List Nat)) (comp : List CompRow) (nAttr : Nat) :
    List (List Nat × List (Option (List Nat))) :=
  keys.flatMap fun v =>
    let ms := comp.filter fun r => r.key == v
    if ms.isEmpty then [(v, List.replicate nAttr none)]
    else ms.map fun r => (v, r.attrs.map some)

/-- `df_bom.fillna("-")`: replace the lingering merge `NaN`s by the
sentinel dash. -/
def fillDash (rows : List (List Nat × List (Option (List Nat)))) :
    List (List Nat × List (List Nat)) :=
  rows.map fun p => (p.1, p.2.map fun o => o.getD dash)

/-- The whole BOM pipeline of the Project Explorer: melt, normalize,
filter, left-join, fill. -/
def bomJoin (slots : List (Option (List Nat))) (comp : List CompRow) (nAttr : Nat) :
    List (List Nat × List (List Nat)) :=
  fillDash (mergeLeft (bomKeys slots) comp nAttr)

/-! ## KPI layer -/

/-- `str.contains(term, case=False)` on one cell. -/
def containsCI (needle hay : List Nat) : Bool :=
  hasSub (lowerStr needle) (lowerStr hay)

/-- Number of status cells containing "Available" case-insensitively
(the `avail` / `in_stock` sums). -/
def availCount (statuses : List (List Nat)) : Nat :=
  (statuses.filter fun s => containsCI (S "Available") s).length

/-- `int((num/total)*100) if total > 0 else 0`: the guarded percentage of
the Inventory KPI (line 318) and the Project readiness KPI (line 498).
Python's float division followed by `int` truncation is modelled as
natural floor division, which agrees on exact quotients and is likewise
only evaluated when `total > 0`. -/
def pctOf (num total : Nat) : Nat := if 0 < total then num * 100 / total else 0

/-! ## Sheet loader (`load_data_v10`) -/

/-- A workbook sheet: its name and its table. -/
structure Sheet where
  name : List Nat
  cols : List Column
deriving DecidableEq, Repr

/-- Header cleanup: `df.columns = [c.strip() for c in df.columns]`,
applied only to non-empty frames. -/
def stripHeaders (df : List Column) : List Column :=
  if dfEmpty df then df else df.map fun c => ⟨strip c.header, c.cells⟩

/-- Delivery-set sheet selection: the sheet whose name contains both
"Set" and "Delivery", falling back to "Delivery" alone. -/
def findSetSheet (sheets : List Sheet) : Option Sheet :=
  match sheets.find? fun s => hasSub (S "Set") s.name && hasSub (S "Delivery") s.name with
  | some s => some s
  | none => sheets.find? fun s => hasSub (S "Delivery") s.name

/-- Projects sheet selection: name contains both "Project" and
"Considered". -/
def findProjSheet (sheets : List Sheet) : Option Sheet :=
  sheets.find? fun s => hasSub (S "Project") s.name && hasSub (S "Considered") s.name

/-- `load_data_v10` over an already-parsed workbook: `none` models a
missing file (`Path.exists` false) or an unreadable workbook (the
`except` branch); an empty sheet list also lands in the `except` branch
because `xls.sheet_names[0]` raises `IndexError` there.  Sheet selection
follows the `next(...)` generators: Component sheet by substring with
first-sheet fallback, Delivery Sets via `findSetSheet`, Projects via
`findProjSheet`; a missing optional sheet yields an empty frame
(`pd.DataFrame()`).  Each selected frame gets its headers stripped and is
deep-cleaned before being returned. -/
def load_data (wb : Option (List Sheet)) :
    Option (List Column) × Option (List Column) × Option (List Column) :=
  match wb with
  | none => (none, none, none)
  | some sheets =>
    match sheets with
    | [] => (none, none, none)
    | s0 :: _ =>
      (some (clean (stripHeaders
         (((sheets.find? fun s => hasSub (S "Component") s.name).getD s0).cols))),
       some (clean (stripHeaders
         (match findSetSheet sheets with | some s => s.cols | none => []))),
       some (clean (stripHeaders
         (match findProjSheet sheets with | some s => s.cols | none => []))))


/-! ## Character-level lemmas -/

theorem loC_upC (c : Nat) : loC (upC c) = loC c := by
  simp only [loC, upC, isUpC, isLoC, Bool.and_eq_true, decide_eq_true_eq]
  split_ifs <;> omega

theorem loC_loC (c : Nat) : loC (loC c) = loC c := by
  simp only [loC, isUpC, Bool.and_eq_true, decide_eq_true_eq]
  split_ifs <;> omega

theorem upC_upC (c : Nat) : upC (upC c) = upC c := by
  simp only [upC, isLoC, Bool.and_eq_true, decide_eq_true_eq]
  split_ifs <;> omega

theorem isAl_upC (c : Nat) : isAl (upC c) = isAl c := by
  rw [Bool.eq_iff_iff]
  simp only [isAl, upC, isUpC, isLoC, Bool.or_eq_true, Bool.and_eq_true,
    decide_eq_true_eq]
  split_ifs with h <;> simp only [Bool.and_eq_true, decide_eq_true_eq] at h <;> omega

theorem isAl_loC (c : Nat) : isAl (loC c) = isAl c := by
  rw [Bool.eq_iff_iff]
  simp only [isAl, loC, isUpC, isLoC, Bool.or_eq_true, Bool.and_eq_true,
    decide_eq_true_eq]
  split_ifs with h <;> simp only [Bool.and_eq_true, decide_eq_true_eq] at h <;> omega

theorem isUpC_loC (c : Nat) : isUpC (loC c) = false := by
  simp only [loC, isUpC, isLoC, Bool.and_eq_true, decide_eq_true_eq]
  split_ifs with h <;>
    simp only [Bool.and_eq_true, decide_eq_true_eq, Bool.and_eq_false_iff,
      decide_eq_false_iff_not] at * <;> omega

theorem isUpC_false_of_not_isAl (c : Nat) (h : isAl c = false) : isUpC c = false := by
  simp only [isAl, isUpC, isLoC, Bool.or_eq_true, Bool.and_eq_true,
    decide_eq_true_eq] at *
  simp only [Bool.or_eq_false_iff] at h
  exact h.1

/-! ## String-level lemmas -/

theorem lowerStr_upperStr (s : List Nat) : lowerStr (upperStr s) = lowerStr s := by
  simp [lowerStr, upperStr, List.map_map, Function.comp_def, loC_upC]

theorem upperStr_upperStr (s : List Nat) : upperStr (upperStr s) = upperStr s := by
  simp [upperStr, List.map_map, Function.comp_def, upC_upC]

theorem lowerStr_titleGo (b : Bool) (s : List Nat) :
    lowerStr (titleGo b s) = lowerStr s := by
  induction s generalizing b with
  | nil => rfl
  | cons c r ih =>
    simp only [titleGo, lowerStr, List.map_cons] at *
    rw [ih]
    congr 1
    split_ifs <;> simp [loC_loC, loC_upC]

theorem lowerStr_titleStr (s : List Nat) : lowerStr (titleStr s) = lowerStr s :=
  lowerStr_titleGo false s

theorem titleGo_titleGo (b : Bool) (s : List Nat) :
    titleGo b (titleGo b s) = titleGo b s := by
  induction s generalizing b with
  | nil => rfl
  | cons c r ih =>
    simp only [titleGo]
    have hal : isAl (if isAl c = true then if b = true then loC c else upC c else c) =
        isAl c := by
      split_ifs with h1 h2 <;> simp [isAl_loC, isAl_upC, h1]
    rw [hal, ih]
    congr 1
    split_ifs <;> simp [loC_loC, upC_upC]

theorem titleStr_titleStr (s : List Nat) : titleStr (titleStr s) = titleStr s :=
  titleGo_titleGo false s

theorem okPairs_titleGo (s : List Nat) (b : Bool) : okPairs (titleGo b s) = true := by
  induction s generalizing b with
  | nil => rfl
  | cons c r ih =>
    cases r with
    | nil => simp [titleGo, okPairs]
    | cons d r2 =>
      have htail : okPairs (titleGo (isAl c) (d :: r2)) = true := ih (isAl c)
      simp only [titleGo] at htail ⊢
      rw [okPairs, Bool.and_eq_true]
      refine ⟨?_, htail⟩
      by_cases h1 : isAl c = true
      · by_cases h2 : isAl d = true
        · simp [h1, h2, isUpC_loC]
        · simp [h1, h2, isUpC_false_of_not_isAl d (by simpa using h2)]
      · simp [h1]

/-! ## Junk and brand lemmas -/

theorem brandLookup_eq_none_of_okPairs (v : List Nat) (hv : okPairs v = true) :
    brandLookup v = none := by
  simp only [brandLookup, Option.map_eq_none']
  rw [List.find?_eq_none]
  intro p hp hb
  have hpe : p.1 = v := by simpa using hb
  fin_cases hp <;> (rw [← hpe] at hv; revert hv; decide)

theorem brandLookup_titleStr (s : List Nat) : brandLookup (titleStr s) = none :=
  brandLookup_eq_none_of_okPairs _ (okPairs_titleGo s false)

theorem brandRep_of_none (v : List Nat) (h : brandLookup v = none) : brandRep v = v := by
  simp [brandRep, h]

theorem brandRep_titleStr (s : List Nat) : brandRep (titleStr s) = titleStr s :=
  brandRep_of_none _ (brandLookup_titleStr s)

theorem brandLookup_mem (v w : List Nat) (h : brandLookup v = some w) :
    (v, w) ∈ brand_map := by
  unfold brandLookup at h
  cases hf : brand_map.find? fun p => p.1 == v with
  | none => rw [hf] at h; simp at h
  | some p =>
    rw [hf] at h
    simp only [Option.map_some', Option.some.injEq] at h
    have hp := List.find?_some hf
    have hm : p ∈ brand_map := List.mem_of_find?_eq_some hf
    have : p = (v, w) := by
      obtain ⟨p1, p2⟩ := p
      simp only [beq_iff_eq] at hp
      simp_all
    rwa [this] at hm

theorem junkRep_contains (s : List Nat) :
    junkTokens.contains (lowerStr (junkRep s)) = false := by
  unfold junkRep
  split_ifs with h
  · decide
  · simpa using h

theorem junkRep_of_not (s : List Nat)
    (h : junkTokens.contains (lowerStr s) = false) : junkRep s = s := by
  unfold junkRep
  rw [if_neg]
  simpa using h

theorem contains_lower_caseStep (h s : List Nat) :
    junkTokens.contains (lowerStr (caseStep h s)) =
      junkTokens.contains (lowerStr s) := by
  unfold caseStep
  split_ifs
  · rw [lowerStr_upperStr]
  · rw [lowerStr_titleStr]

theorem contains_lower_brandRep (v : List Nat)
    (h : junkTokens.contains (lowerStr v) = false) :
    junkTokens.contains (lowerStr (brandRep v)) = false := by
  cases hb : brandLookup v with
  | none => rw [brandRep_of_none _ hb]; exact h
  | some w =>
    have hm := brandLookup_mem v w hb
    have hw : brandRep v = w := by simp [brandRep, hb]
    rw [hw]
    have : w ∈ brand_map.map Prod.snd := List.mem_map_of_mem _ hm
    fin_cases this <;> decide

theorem cellT_junk_free (h s : List Nat) (hl : isLinkCol h = false) :
    junkTokens.contains (lowerStr (cellT h s)) = false := by
  unfold cellT
  rw [if_neg (by simp [hl])]
  split_ifs with hb
  · refine contains_lower_brandRep _ ?_
    unfold cellClean
    rw [contains_lower_caseStep]
    exact junkRep_contains _
  · unfold cellClean
    rw [contains_lower_caseStep]
    exact junkRep_contains _

/-! ## Case-policy and header-classification lemmas -/

theorem caseStep_caseStep (h s : List Nat) :
    caseStep h (caseStep h s) = caseStep h s := by
  unfold caseStep
  split_ifs
  · exact upperStr_upperStr s
  · exact titleStr_titleStr s

theorem caseStep_dash (h : List Nat) : caseStep h dash = dash := by
  unfold caseStep
  split_ifs
  · decide
  · decide

theorem isBrandName_cases (h : List Nat) (hb : isBrandName h = true) :
    lowerStr h = S "mfg" ∨ lowerStr h = S "manufacturer" ∨ lowerStr h = S "brand" := by
  have hm : lowerStr h ∈ brandNames := by simpa [isBrandName] using hb
  simpa [brandNames] using hm

theorem isBrandName_link_false (h : List Nat) (hb : isBrandName h = true) :
    isLinkCol h = false := by
  rcases isBrandName_cases h hb with hm | hm | hm <;> (unfold isLinkCol; rw [hm]; decide)

theorem cellT_nonlink (h s : List Nat) (hl : isLinkCol h = false) :
    cellT h s = if isBrandName h then brandRep (cellClean h s) else cellClean h s := by
  unfold cellT
  rw [if_neg]
  simp [hl]

theorem cellT_id_nonbrand (h s : List Nat) (hl : isLinkCol h = false)
    (hb : isBrandName h = false) (hid : isIdCol h = true) :
    cellT h s = upperStr (junkRep (drop0 (strip s))) := by
  simp [cellT, cellClean, caseStep, hl, hb, hid]

theorem cellT_title_nonbrand (h s : List Nat) (hl : isLinkCol h = false)
    (hb : isBrandName h = false) (hid : isIdCol h = false) :
    cellT h s = titleStr (junkRep (drop0 (strip s))) := by
  simp [cellT, cellClean, caseStep, hl, hb, hid]

theorem cellT_id_brand (h s : List Nat) (hl : isLinkCol h = false)
    (hb : isBrandName h = true) (hid : isIdCol h = true) :
    cellT h s = brandRep (upperStr (junkRep (drop0 (strip s)))) := by
  simp [cellT, cellClean, caseStep, hl, hb, hid]

theorem cellT_title_brand (h s : List Nat) (hl : isLinkCol h = false)
    (hb : isBrandName h = true) (hid : isIdCol h = false) :
    cellT h s = titleStr (junkRep (drop0 (strip s))) := by
  simp [cellT, cellClean, caseStep, hl, hb, hid, brandRep_titleStr]

theorem brandRep_of_some (v w : List Nat) (hw : brandLookup v = some w) :
    brandRep v = w := by
  unfold brandRep
  rw [hw]
  rfl

/-! ## `drop0` transfer lemmas -/

theorem drop0_map_eq_self (f : Nat → Nat) (hf46 : f 46 = 46) (hf48 : f 48 = 48)
    (s k : List Nat) (hk : s.map f = k)
    (hne : ¬(2 ≤ k.length ∧ k.drop (k.length - 2) = [46, 48])) : drop0 s = s := by
  unfold drop0
  rw [if_neg]
  rintro ⟨h1, h2⟩
  apply hne
  subst hk
  refine ⟨by simpa using h1, ?_⟩
  rw [List.length_map, ← List.map_drop, h2]
  simp [hf46, hf48]

theorem drop0_eq_self_of_lower_junk (s : List Nat)
    (hj : junkTokens.contains (lowerStr s) = true) : drop0 s = s := by
  have hm : lowerStr s ∈ junkTokens := by simpa using hj
  simp only [junkTokens, List.mem_cons, List.not_mem_nil, or_false] at hm
  rcases hm with hc | hc | hc | hc | hc | hc | hc <;>
    exact drop0_map_eq_self loC (by decide) (by decide) s _ hc (by decide)

/-! ## Idempotence of the per-cell transform under the stability conditions -/

theorem cellT_idem (h s : List Nat) (hl : isLinkCol h = false)
    (h1 : strip (cellT h s) = cellT h s)
    (h2 : drop0 (cellT h s) = cellT h s)
    (h3 : isBrandName h = true → cellT h s ≠ S "Seeed Studio") :
    cellT h (cellT h s) = cellT h s := by
  have hfree := cellT_junk_free h s hl
  rw [cellT_nonlink h (cellT h s) hl]
  by_cases hb : isBrandName h = true
  · rw [if_pos hb]
    rcases isBrandName_cases h hb with hm | hm | hm
    · -- the column is exactly "mfg": ID case policy, uppercase
      have hid : isIdCol h = true := by unfold isIdCol; rw [hm]; decide
      have hy : cellT h s = brandRep (upperStr (junkRep (drop0 (strip s)))) := by
        simp [cellT, cellClean, caseStep, hl, hb, hid]
      have hcc : cellClean h (cellT h s) = upperStr (cellT h s) := by
        unfold cellClean
        rw [h1, h2, junkRep_of_not _ hfree]
        simp [caseStep, hid]
      rw [hcc]
      cases hbl : brandLookup (upperStr (junkRep (drop0 (strip s)))) with
      | none =>
        have ht2 : cellT h s = upperStr (junkRep (drop0 (strip s))) := by
          rw [hy, brandRep_of_none _ hbl]
        rw [ht2, upperStr_upperStr]
        exact brandRep_of_none _ hbl
      | some w =>
        have hw : cellT h s = w := by rw [hy]; simp [brandRep, hbl]
        have hmem := brandLookup_mem _ _ hbl
        have hne := h3 hb
        rw [hw] at hne ⊢
        have hw2 : w ∈ brand_map.map Prod.snd := List.mem_map_of_mem _ hmem
        fin_cases hw2 <;> first | exact absurd rfl hne | decide
    · -- the column is exactly "manufacturer": title case policy
      have hid : isIdCol h = false := by unfold isIdCol; rw [hm]; decide
      have hy : cellT h s = titleStr (junkRep (drop0 (strip s))) := by
        simp [cellT, cellClean, caseStep, hl, hb, hid, brandRep_titleStr]
      have hcc : cellClean h (cellT h s) = titleStr (cellT h s) := by
        unfold cellClean
        rw [h1, h2, junkRep_of_not _ hfree]
        simp [caseStep, hid]
      rw [hcc, hy, titleStr_titleStr, brandRep_titleStr]
    · -- the column is exactly "brand": title case policy
      have hid : isIdCol h = false := by unfold isIdCol; rw [hm]; decide
      have hy : cellT h s = titleStr (junkRep (drop0 (strip s))) := by
        simp [cellT, cellClean, caseStep, hl, hb, hid, brandRep_titleStr]
      have hcc : cellClean h (cellT h s) = titleStr (cellT h s) := by
        unfold cellClean
        rw [h1, h2, junkRep_of_not _ hfree]
        simp [caseStep, hid]
      rw [hcc, hy, titleStr_titleStr, brandRep_titleStr]
  · rw [if_neg hb]
    have hb' : isBrandName h = false := by simpa using hb
    have hy : cellT h s = caseStep h (junkRep (drop0 (strip s))) := by
      simp [cellT, cellClean, hl, hb']
    have hcc : cellClean h (cellT h s) = caseStep h (cellT h s) := by
      unfold cellClean
      rw [h1, h2, junkRep_of_not _ hfree]
    rw [hcc, hy, caseStep_caseStep]

/-! ## Table-level representation of `clean` -/

theorem cellT_link (h s : List Nat) (hl : isLinkCol h = true) : cellT h s = s := by
  unfold cellT
  rw [if_pos hl]

theorem brandCol_colClean (c : Column) :
    brandCol (colClean c) = ⟨c.header, c.cells.map (cellT c.header)⟩ := by
  by_cases hl : isLinkCol c.header = true
  · have hb : isBrandName c.header = false := by
      by_contra hx
      have hbt : isBrandName c.header = true := by simpa using hx
      have := isBrandName_link_false c.header hbt
      simp [hl] at this
    unfold colClean brandCol
    rw [if_pos hl, if_neg (by simp [hb])]
    cases c with
    | mk hd cl =>
      simp only [Column.mk.injEq, true_and]
      rw [List.map_congr_left fun x _ => cellT_link hd x hl]
      exact (List.map_id cl).symm
  · have hl' : isLinkCol c.header = false := by simpa using hl
    have hcol : colClean c = ⟨c.header, c.cells.map (cellClean c.header)⟩ := by
      unfold colClean
      simp [hl']
    have hbpos : ∀ d : Column, isBrandName d.header = true →
        brandCol d = ⟨d.header, d.cells.map brandRep⟩ := by
      intro d hd
      unfold brandCol
      rw [if_pos hd]
    have hbneg : ∀ d : Column, isBrandName d.header = false → brandCol d = d := by
      intro d hd
      unfold brandCol
      rw [if_neg]
      simp [hd]
    rw [hcol]
    by_cases hb : isBrandName c.header = true
    · rw [hbpos ⟨c.header, c.cells.map (cellClean c.header)⟩ hb]
      simp only [Column.mk.injEq, true_and, List.map_map]
      refine List.map_congr_left fun x _ => ?_
      simp [Function.comp_def, cellT, hl', hb]
    · have hb' : isBrandName c.header = false := by simpa using hb
      rw [hbneg ⟨c.header, c.cells.map (cellClean c.header)⟩ hb']
      simp only [Column.mk.injEq, true_and]
      refine List.map_congr_left fun x _ => ?_
      simp [cellT, hl', hb']

theorem clean_eq_map (df : List Column) (hne : dfEmpty df = false) :
    clean df = df.map fun c => Column.mk c.header (c.cells.map (cellT c.header)) := by
  unfold clean
  rw [if_neg (by simp [hne])]
  exact List.map_congr_left fun c _ => brandCol_colClean c

theorem clean_getD (df : List Column) (hne : dfEmpty df = false) (i : Nat) :
    (clean df).getD i defCol =
      ⟨(df.getD i defCol).header,
       (df.getD i defCol).cells.map (cellT (df.getD i defCol).header)⟩ := by
  rw [clean_eq_map df hne]
  rcases Nat.lt_or_ge i df.length with hi | hi
  · rw [List.getD_eq_getElem _ _ (by simpa using hi), List.getD_eq_getElem _ _ hi,
      List.getElem_map]
  · rw [List.getD_eq_default _ _ (by simpa using hi), List.getD_eq_default _ _ hi]
    decide

theorem dfEmpty_clean (df : List Column) : dfEmpty (clean df) = dfEmpty df := by
  by_cases he : dfEmpty df = true
  · unfold clean
    rw [if_pos he, he]
  · have he' : dfEmpty df = false := by simpa using he
    rw [clean_eq_map df he']
    unfold dfEmpty
    rw [List.any_map]
    have h1 : (df.map fun c => Column.mk c.header (c.cells.map (cellT c.header))).isEmpty
        = df.isEmpty := by
      cases df <;> rfl
    have h2 : ((fun c : Column => c.cells.isEmpty) ∘
          fun c : Column => Column.mk c.header (c.cells.map (cellT c.header)))
        = fun c : Column => c.cells.isEmpty := by
      funext c
      cases hc : c.cells <;> simp [Function.comp_def, hc]
    rw [h1, h2]

/-! ## Claims -/

/-- C1: BOM Linker round-trip. For a project row whose component slots
hold ["ABC-123", "", "-", "xyz999"], melting, normalizing (trim,
uppercase, strip trailing ".0") and junk-filtering yields exactly
["ABC-123", "XYZ999"]; left-joining against a cleaned Component table
holding exactly one row keyed "ABC-123" and no row keyed "XYZ999" yields
exactly two rows: one with the matched Component attributes, one with the
sentinel dash in every Component attribute. -/
theorem C1_bom_roundtrip (comp : List CompRow) (r : CompRow) (n : Nat)
    (hfind : comp.filter (fun c => c.key == S "ABC-123") = [r])
    (hmiss : ∀ c ∈ comp, c.key ≠ S "XYZ999") :
    bomKeys [some (S "ABC-123"), some (S ""), some (S "-"), some (S "xyz999")] =
      [S "ABC-123", S "XYZ999"] ∧
    bomJoin [some (S "ABC-123"), some (S ""), some (S "-"), some (S "xyz999")] comp n =
      [(S "ABC-123", r.attrs), (S "XYZ999", List.replicate n dash)] ∧
    (bomJoin [some (S "ABC-123"), some (S ""), some (S "-"), some (S "xyz999")]
      comp n).length = 2 := by
  have hkeys : bomKeys [some (S "ABC-123"), some (S ""), some (S "-"),
      some (S "xyz999")] = [S "ABC-123", S "XYZ999"] := by decide
  have hfilter2 : comp.filter (fun c => c.key == S "XYZ999") = [] := by
    rw [List.filter_eq_nil_iff]
    intro a ha
    simpa using hmiss a ha
  have hjoin : bomJoin [some (S "ABC-123"), some (S ""), some (S "-"),
      some (S "xyz999")] comp n =
      [(S "ABC-123", r.attrs), (S "XYZ999", List.replicate n dash)] := by
    unfold bomJoin mergeLeft
    rw [hkeys]
    have hc1 : ¬∀ a ∈ comp, ¬a.key = S "ABC-123" := by
      intro hall
      have hnil : comp.filter (fun c => c.key == S "ABC-123") = [] := by
        rw [List.filter_eq_nil_iff]
        intro a ha
        simpa using hall a ha
      rw [hfind] at hnil
      simp at hnil
    have hc2 : ∀ a ∈ comp, ¬a.key = S "XYZ999" := fun a ha => hmiss a ha
    simp [hfind, hfilter2, fillDash, List.map_replicate, hc1, hc2]
    constructor
    · have hcomp : ((fun o : Option (List Nat) => o.getD dash) ∘ some) =
          fun a : List Nat => a := by
        funext o
        rfl
      rw [hcomp, List.map_id']
    · rw [if_pos hc2]
      simp [List.map_replicate]
  exact ⟨hkeys, hjoin, by rw [hjoin]; rfl⟩

/-- C1 witness: the round-trip at a concrete one-row Component table. -/
theorem C1_bom_roundtrip_witness :
    bomJoin [some (S "ABC-123"), some (S ""), some (S "-"), some (S "xyz999")]
      [⟨S "ABC-123", [S "Ultrasonic Sensor", S "Available"]⟩] 2 =
      [(S "ABC-123", [S "Ultrasonic Sensor", S "Available"]),
       (S "XYZ999", List.replicate 2 dash)] :=
  (C1_bom_roundtrip [⟨S "ABC-123", [S "Ultrasonic Sensor", S "Available"]⟩]
    ⟨S "ABC-123", [S "Ultrasonic Sensor", S "Available"]⟩ 2
    (by decide) (by decide)).2.1

/-- C2 counterexample: the Value Cleaner is not idempotent. The cell
"1.0.0" (title-case column "A") cleans to "1.0" in one pass and to "1"
in a second pass, so cleaning twice differs from cleaning once. -/
theorem C2_counterexample :
    clean (clean [⟨S "A", [S "1.0.0"]⟩]) ≠ clean [⟨S "A", [S "1.0.0"]⟩] := by decide

/-- C2 (amended): the Value Cleaner is idempotent on every table whose
once-cleaned cells are already whitespace-stripped and free of a trailing
".0", and whose once-cleaned brand-column cells are not the canonical
"Seeed Studio" (whose re-uppercasing "SEEED STUDIO" is no alias key). -/
theorem C2_clean_idem (df : List Column)
    (h1 : ∀ c ∈ clean df, ∀ t ∈ c.cells, strip t = t ∧ drop0 t = t)
    (h2 : ∀ c ∈ clean df, isBrandName c.header = true →
      ∀ t ∈ c.cells, t ≠ S "Seeed Studio") :
    clean (clean df) = clean df := by
  by_cases he : dfEmpty df = true
  · have hcl : clean df = df := by
      unfold clean
      rw [if_pos he]
    rw [hcl]
    exact hcl
  · have he' : dfEmpty df = false := by simpa using he
    have hec : dfEmpty (clean df) = false := by rw [dfEmpty_clean]; exact he'
    rw [clean_eq_map (clean df) hec, clean_eq_map df he', List.map_map]
    refine List.map_congr_left fun c0 hc0 => ?_
    show Column.mk c0.header
        ((c0.cells.map (cellT c0.header)).map (cellT c0.header)) =
      Column.mk c0.header (c0.cells.map (cellT c0.header))
    rw [List.map_map]
    refine congrArg _ ?_
    refine List.map_congr_left fun s hs => ?_
    show cellT c0.header (cellT c0.header s) = cellT c0.header s
    by_cases hlk : isLinkCol c0.header = true
    · rw [cellT_link c0.header s hlk]
      exact cellT_link c0.header s hlk
    · have hfc : (Column.mk c0.header (c0.cells.map (cellT c0.header))) ∈ clean df := by
        rw [clean_eq_map df he']
        exact List.mem_map.mpr ⟨c0, hc0, rfl⟩
      obtain ⟨hs1, hs2⟩ := h1 _ hfc _ (List.mem_map_of_mem _ hs)
      have hs3 := fun hb => h2 _ hfc hb _ (List.mem_map_of_mem _ hs)
      exact cellT_idem c0.header s (by simpa using hlk) hs1 hs2 hs3

/-- C2 witness: the amended idempotence at a concrete two-column table
with a title-cased name column and a brand-canonicalized Mfg column. -/
theorem C2_clean_idem_witness :
    clean (clean [⟨S "Name", [S "hello"]⟩, ⟨S "Mfg", [S "dfr"]⟩]) =
      clean [⟨S "Name", [S "hello"]⟩, ⟨S "Mfg", [S "dfr"]⟩] :=
  C2_clean_idem [⟨S "Name", [S "hello"]⟩, ⟨S "Mfg", [S "dfr"]⟩]
    (by decide) (by decide)

theorem clean_cell_getD (df : List Column) (hne : dfEmpty df = false) (i j : Nat)
    (hj : j < (df.getD i defCol).cells.length) :
    ((clean df).getD i defCol).cells.getD j [] =
      cellT (df.getD i defCol).header ((df.getD i defCol).cells.getD j []) := by
  rw [clean_getD df hne i]
  show ((df.getD i defCol).cells.map (cellT (df.getD i defCol).header)).getD j [] = _
  rw [List.getD_eq_getElem _ _ (by simpa using hj), List.getD_eq_getElem _ _ hj,
    List.getElem_map]

/-- C3 counterexample: a link column is passed through untouched, so a
link cell holding the raw placeholder text "nan" survives cleaning: the
claim's unqualified "no cleaned cell holds a raw null/placeholder value"
fails on link columns. -/
theorem C3_counterexample :
    clean [⟨S "Link", [S "nan"]⟩] = [⟨S "Link", [S "nan"]⟩] ∧
    junkTokens.contains (lowerStr (strip (S "nan"))) = true ∧
    S "nan" ≠ dash := by decide

/-- C3 (amended): in every non-link column of a non-empty table, a cell
whose original text, stripped of surrounding whitespace, matches a junk
token case-insensitively cleans to exactly the sentinel "-", and no
cleaned non-link cell matches a junk token (the no-raw-placeholder
invariant restricted to non-link columns). -/
theorem C3_junk_to_dash (df : List Column) (i j : Nat)
    (hne : dfEmpty df = false)
    (hl : isLinkCol (df.getD i defCol).header = false)
    (hj : j < (df.getD i defCol).cells.length) :
    (junkTokens.contains (lowerStr (strip ((df.getD i defCol).cells.getD j []))) = true →
      ((clean df).getD i defCol).cells.getD j [] = dash) ∧
    junkTokens.contains
      (lowerStr (((clean df).getD i defCol).cells.getD j [])) = false := by
  rw [clean_cell_getD df hne i j hj]
  constructor
  · intro hjunk
    have hcc : cellClean (df.getD i defCol).header
        ((df.getD i defCol).cells.getD j []) = dash := by
      unfold cellClean
      rw [drop0_eq_self_of_lower_junk _ hjunk]
      have hrep : junkRep (strip ((df.getD i defCol).cells.getD j [])) = dash := by
        unfold junkRep
        rw [if_pos hjunk]
      rw [hrep, caseStep_dash]
    rw [cellT_nonlink _ _ hl]
    split_ifs with hb
    · rw [hcc]
      decide
    · exact hcc
  · exact cellT_junk_free _ _ hl

/-- C3 witness: the junk cell " nan " of a non-link Status column cleans
to the sentinel dash. -/
theorem C3_junk_to_dash_witness :
    ((clean [⟨S "Status", [S " nan "]⟩]).getD 0 defCol).cells.getD 0 [] = dash :=
  (C3_junk_to_dash [⟨S "Status", [S " nan "]⟩] 0 0 (by decide) (by decide)
    (by decide)).1 (by decide)

/-- C4 counterexample: in the ID-like column "Mfg" the cell "dfr" cleans
to the canonical brand "DFRobot", which is not fully uppercase, so the
claimed case policy fails as stated. -/
theorem C4_counterexample :
    isIdCol (S "Mfg") = true ∧
    ((clean [⟨S "Mfg", [S "dfr"]⟩]).getD 0 defCol).cells.getD 0 [] = S "DFRobot" ∧
    upperStr (S "DFRobot") ≠ S "DFRobot" := by decide

/-- C4 (amended): case policy over non-link columns of a non-empty
table: cells of ID-like columns (header containing no/id/code/mfg) are
fully uppercase, except that in a column lowercased exactly "mfg" a cell
may instead be a canonical brand name from the alias table; cells of all
other non-link columns are title-cased. -/
theorem C4_case_policy (df : List Column) (i j : Nat)
    (hne : dfEmpty df = false)
    (hj : j < (df.getD i defCol).cells.length) :
    (isIdCol (df.getD i defCol).header = true →
      isLinkCol (df.getD i defCol).header = false →
      lowerStr (df.getD i defCol).header ≠ S "mfg" →
      upperStr (((clean df).getD i defCol).cells.getD j []) =
        ((clean df).getD i defCol).cells.getD j []) ∧
    (isIdCol (df.getD i defCol).header = true →
      lowerStr (df.getD i defCol).header = S "mfg" →
      (upperStr (((clean df).getD i defCol).cells.getD j []) =
        ((clean df).getD i defCol).cells.getD j [] ∨
      ((clean df).getD i defCol).cells.getD j [] ∈ brand_map.map Prod.snd)) ∧
    (isIdCol (df.getD i defCol).header = false →
      isLinkCol (df.getD i defCol).header = false →
      titleStr (((clean df).getD i defCol).cells.getD j []) =
        ((clean df).getD i defCol).cells.getD j []) := by
  rw [clean_cell_getD df hne i j hj]
  refine ⟨?_, ?_, ?_⟩
  · intro hid hl hnm
    by_cases hb : isBrandName (df.getD i defCol).header = true
    · rcases isBrandName_cases _ hb with hm | hm | hm
      · exact absurd hm hnm
      · have hidf : isIdCol (df.getD i defCol).header = false := by
          unfold isIdCol
          rw [hm]
          decide
        rw [hidf] at hid
        simp at hid
      · have hidf : isIdCol (df.getD i defCol).header = false := by
          unfold isIdCol
          rw [hm]
          decide
        rw [hidf] at hid
        simp at hid
    · have hb' : isBrandName (df.getD i defCol).header = false := by simpa using hb
      rw [cellT_id_nonbrand _ _ hl hb' hid, upperStr_upperStr]
  · intro hid hm
    have hl : isLinkCol (df.getD i defCol).header = false := by
      unfold isLinkCol
      rw [hm]
      decide
    have hb : isBrandName (df.getD i defCol).header = true := by
      unfold isBrandName brandNames
      rw [hm]
      decide
    rw [cellT_id_brand _ _ hl hb hid]
    cases hbl : brandLookup (upperStr (junkRep (drop0 (strip
        ((df.getD i defCol).cells.getD j []))))) with
    | none =>
      left
      rw [brandRep_of_none _ hbl, upperStr_upperStr]
    | some w =>
      right
      rw [brandRep_of_some _ _ hbl]
      exact List.mem_map_of_mem _ (brandLookup_mem _ _ hbl)
  · intro hid hl
    by_cases hb : isBrandName (df.getD i defCol).header = true
    · rcases isBrandName_cases _ hb with hm | hm | hm
      · have hidt : isIdCol (df.getD i defCol).header = true := by
          unfold isIdCol
          rw [hm]
          decide
        rw [hidt] at hid
        simp at hid
      · rw [cellT_title_brand _ _ hl hb hid, titleStr_titleStr]
      · rw [cellT_title_brand _ _ hl hb hid, titleStr_titleStr]
    · have hb' : isBrandName (df.getD i defCol).header = false := by simpa using hb
      rw [cellT_title_nonbrand _ _ hl hb' hid, titleStr_titleStr]

/-- C4 witness: the ID-like column "PartNo" uppercases its cells. -/
theorem C4_case_policy_witness :
    upperStr (((clean [⟨S "PartNo", [S "abc"]⟩]).getD 0 defCol).cells.getD 0 []) =
      ((clean [⟨S "PartNo", [S "abc"]⟩]).getD 0 defCol).cells.getD 0 [] :=
  (C4_case_policy [⟨S "PartNo", [S "abc"]⟩] 0 0 (by decide) (by decide)).1
    (by decide) (by decide) (by decide)

/-- C5 counterexample: in a column headed "Brand" the cell "DFR" is
title-cased to "Dfr" by the case policy, and the exact-match alias
replacement then misses the uppercase key "DFR": the cell stays "Dfr"
instead of the canonical "DFRobot" the claim requires. -/
theorem C5_counterexample :
    clean [⟨S "Brand", [S "DFR"]⟩] = [⟨S "Brand", [S "Dfr"]⟩] ∧
    S "Dfr" ≠ S "DFRobot" := by decide

/-- C5 (amended): the alias replacement is an exact full-value match
applied after the case policy. In a column lowercased exactly "mfg" the
cells are uppercased first, so any casing of an alias resolves to its
canonical form, and a value that is no alias key passes the brand step
unchanged; in columns lowercased exactly "manufacturer" or "brand" the
cells are title-cased first, the all-uppercase alias keys never match,
and every cell passes through the brand step unchanged. -/
theorem C5_brand_policy (df : List Column) (i j : Nat)
    (hne : dfEmpty df = false)
    (hj : j < (df.getD i defCol).cells.length) :
    (lowerStr (df.getD i defCol).header = S "mfg" →
      ∀ w, brandLookup (upperStr (strip ((df.getD i defCol).cells.getD j []))) =
          some w →
      ((clean df).getD i defCol).cells.getD j [] = w) ∧
    (lowerStr (df.getD i defCol).header = S "mfg" →
      brandLookup (upperStr (junkRep (drop0 (strip
          ((df.getD i defCol).cells.getD j []))))) = none →
      ((clean df).getD i defCol).cells.getD j [] =
        upperStr (junkRep (drop0 (strip ((df.getD i defCol).cells.getD j []))))) ∧
    ((lowerStr (df.getD i defCol).header = S "manufacturer" ∨
      lowerStr (df.getD i defCol).header = S "brand") →
      ((clean df).getD i defCol).cells.getD j [] =
        titleStr (junkRep (drop0 (strip ((df.getD i defCol).cells.getD j []))))) := by
  rw [clean_cell_getD df hne i j hj]
  refine ⟨?_, ?_, ?_⟩
  · intro hm w hw
    have hl : isLinkCol (df.getD i defCol).header = false := by
      unfold isLinkCol
      rw [hm]
      decide
    have hb : isBrandName (df.getD i defCol).header = true := by
      unfold isBrandName brandNames
      rw [hm]
      decide
    have hid : isIdCol (df.getD i defCol).header = true := by
      unfold isIdCol
      rw [hm]
      decide
    rw [cellT_id_brand _ _ hl hb hid]
    have hmem := brandLookup_mem _ _ hw
    simp only [brand_map, List.mem_cons, List.not_mem_nil, or_false,
      Prod.mk.injEq] at hmem
    rcases hmem with ⟨hk, hwv⟩ | ⟨hk, hwv⟩ | ⟨hk, hwv⟩ | ⟨hk, hwv⟩ | ⟨hk, hwv⟩ |
        ⟨hk, hwv⟩ | ⟨hk, hwv⟩ | ⟨hk, hwv⟩ <;>
      (have hd : drop0 (strip ((df.getD i defCol).cells.getD j [])) =
          strip ((df.getD i defCol).cells.getD j []) :=
        drop0_map_eq_self upC (by decide) (by decide) _ _ hk (by decide)
       have hlo : lowerStr (strip ((df.getD i defCol).cells.getD j [])) =
          lowerStr (upperStr (strip ((df.getD i defCol).cells.getD j []))) :=
        (lowerStr_upperStr _).symm
       have hjr : junkRep (strip ((df.getD i defCol).cells.getD j [])) =
          strip ((df.getD i defCol).cells.getD j []) := by
        apply junkRep_of_not
        rw [hlo, hk]
        decide
       rw [hd, hjr, brandRep_of_some _ _ hw])
  · intro hm hn
    have hl : isLinkCol (df.getD i defCol).header = false := by
      unfold isLinkCol
      rw [hm]
      decide
    have hb : isBrandName (df.getD i defCol).header = true := by
      unfold isBrandName brandNames
      rw [hm]
      decide
    have hid : isIdCol (df.getD i defCol).header = true := by
      unfold isIdCol
      rw [hm]
      decide
    rw [cellT_id_brand _ _ hl hb hid, brandRep_of_none _ hn]
  · intro hm
    rcases hm with hm | hm <;>
      (have hl : isLinkCol (df.getD i defCol).header = false := by
        unfold isLinkCol
        rw [hm]
        decide
       have hb : isBrandName (df.getD i defCol).header = true := by
        unfold isBrandName brandNames
        rw [hm]
        decide
       have hid : isIdCol (df.getD i defCol).header = false := by
        unfold isIdCol
        rw [hm]
        decide
       rw [cellT_title_brand _ _ hl hb hid])

/-- C5 witness: in an "Mfg" column the cell " dfrobot " resolves through
the alias key "DFROBOT" to the canonical "DFRobot". -/
theorem C5_brand_policy_witness :
    ((clean [⟨S "Mfg", [S " dfrobot "]⟩]).getD 0 defCol).cells.getD 0 [] =
      S "DFRobot" :=
  (C5_brand_policy [⟨S "Mfg", [S " dfrobot "]⟩] 0 0 (by decide) (by decide)).1
    (by decide) (S "DFRobot") (by decide)

/-- C6: frame property of the Value Cleaner: every column whose header
contains "link" (case-insensitively) is identical before and after
cleaning — no trim, case change or junk replacement touches its cells. -/
theorem C6_link_untouched (df : List Column) (i : Nat)
    (hl : isLinkCol (df.getD i defCol).header = true) :
    (clean df).getD i defCol = df.getD i defCol := by
  by_cases he : dfEmpty df = true
  · unfold clean
    rw [if_pos he]
  · have he' : dfEmpty df = false := by simpa using he
    rw [clean_getD df he' i]
    have h1 : (df.getD i defCol).cells.map (cellT (df.getD i defCol).header) =
        (df.getD i defCol).cells.map fun s => s :=
      List.map_congr_left fun s _ => cellT_link _ s hl
    rw [h1, List.map_id']

/-- C6 witness: a concrete link column (with inner junk-looking text)
passes through cleaning byte-identically. -/
theorem C6_link_untouched_witness :
    (clean [⟨S "Link", [S " nan .0 "]⟩]).getD 0 defCol =
      [(⟨S "Link", [S " nan .0 "]⟩ : Column)].getD 0 defCol :=
  C6_link_untouched [⟨S "Link", [S " nan .0 "]⟩] 0 (by decide)

/-- C8: KPI division guard: the percentage is computed as 0 whenever the
filtered row count is zero; the division branch is guarded by
`total > 0` and is never reached at zero rows. -/
theorem C8_kpi_zero (avail total : Nat) (rows : List (List Nat))
    (hrows : rows.length = 0) :
    (total = 0 → pctOf avail total = 0) ∧
    pctOf (availCount rows) rows.length = 0 := by
  constructor
  · intro ht
    rw [ht]
    rfl
  · rw [hrows]
    rfl

/-- C8 witness: the guard at a concrete empty filtered table. -/
theorem C8_kpi_zero_witness :
    pctOf 5 0 = 0 ∧
    pctOf (availCount []) ([] : List (List Nat)).length = 0 :=
  ⟨(C8_kpi_zero 5 0 [] rfl).1 rfl, (C8_kpi_zero 5 0 [] rfl).2⟩

/-- C10: shape preservation: cleaning keeps the headers (in order) and
every column's row count, and returns an empty table unchanged. -/
theorem C10_shape (df : List Column) :
    (clean df).map Column.header = df.map Column.header ∧
    (∀ i, ((clean df).getD i defCol).cells.length =
      (df.getD i defCol).cells.length) ∧
    (dfEmpty df = true → clean df = df) := by
  by_cases he : dfEmpty df = true
  · have hcl : clean df = df := by
      unfold clean
      rw [if_pos he]
    exact ⟨by rw [hcl], fun i => by rw [hcl], fun _ => hcl⟩
  · have he' : dfEmpty df = false := by simpa using he
    refine ⟨?_, ?_, fun hcontra => absurd hcontra (by simp [he'])⟩
    · rw [clean_eq_map df he', List.map_map]
      exact List.map_congr_left fun c _ => rfl
    · intro i
      rw [clean_getD df he' i]
      show ((df.getD i defCol).cells.map (cellT (df.getD i defCol).header)).length = _
      rw [List.length_map]

/-- C10 witness: the empty-table clause at the empty table. -/
theorem C10_shape_witness : clean ([] : List Column) = [] :=
  (C10_shape []).2.2 (by decide)

/-- C7: Column Resolver: `get_col` returns none for an absent or empty
table and when no candidate matches any header case-insensitively;
otherwise it returns, in the table's original header casing, a header
matching the first candidate in list order that matches at all
(e.g. headers ["Part Number", "MfgNo"] with candidates
["MfgNo", "Part Number"] give "MfgNo"). -/
theorem C7_get_col :
    (∀ cands, get_col none cands = none) ∧
    (∀ t cands, dfEmpty t = true → get_col (some t) cands = none) ∧
    (∀ (t : List Column) (cands : List (List Nat)),
      (∀ cd ∈ cands, ∀ c ∈ t, lowerStr cd ≠ lowerStr c.header) →
      get_col (some t) cands = none) ∧
    (∀ (t : List Column) (pre : List (List Nat)) (cd : List Nat)
        (post : List (List Nat)),
      dfEmpty t = false →
      (∀ cd' ∈ pre, ∀ c ∈ t, lowerStr cd' ≠ lowerStr c.header) →
      (∃ c ∈ t, lowerStr cd = lowerStr c.header) →
      ∃ r, get_col (some t) (pre ++ cd :: post) = some r ∧
        r ∈ t.map Column.header ∧ lowerStr r = lowerStr cd) ∧
    get_col (some [⟨S "Part Number", [S "p1"]⟩, ⟨S "MfgNo", [S "m1"]⟩])
      [S "MfgNo", S "Part Number"] = some (S "MfgNo") := by
  refine ⟨fun cands => rfl, ?_, ?_, ?_, by decide⟩
  · intro t cands he
    simp only [get_col]
    rw [if_pos he]
  · intro t cands hno
    simp only [get_col]
    split_ifs with he
    · rfl
    · rw [List.findSome?_eq_none_iff]
      intro cd hcd
      rw [Option.map_eq_none', List.find?_eq_none]
      intro c hc hbeq
      have hle : lowerStr c.header = lowerStr cd := by simpa using hbeq
      exact hno cd hcd c (List.mem_reverse.mp hc) hle.symm
  · intro t pre cd post hne hpre hex
    simp only [get_col]
    rw [if_neg (by simp [hne])]
    have hpre_none : (pre.findSome? fun cand =>
        (t.reverse.find? fun c => lowerStr c.header == lowerStr cand).map
          fun c => c.header) = none := by
      rw [List.findSome?_eq_none_iff]
      intro cd2 hcd2
      rw [Option.map_eq_none', List.find?_eq_none]
      intro c hc hbeq
      have hle : lowerStr c.header = lowerStr cd2 := by simpa using hbeq
      exact hpre cd2 hcd2 c (List.mem_reverse.mp hc) hle.symm
    rw [List.findSome?_append, hpre_none, Option.none_or]
    obtain ⟨c0, hc0t, hc0e⟩ := hex
    cases hfind : t.reverse.find? fun c => lowerStr c.header == lowerStr cd with
    | none =>
      exfalso
      rw [List.find?_eq_none] at hfind
      exact hfind c0 (List.mem_reverse.mpr hc0t) (by simp [hc0e])
    | some c1 =>
      refine ⟨c1.header, ?_, ?_, ?_⟩
      · rw [List.findSome?_cons]
        simp [hfind]
      · exact List.mem_map_of_mem _ (List.mem_reverse.mp (List.mem_of_find?_eq_some hfind))
      · have hp := List.find?_some hfind
        simpa using hp

/-- C7 witness: the priority-order clause at concrete inputs: with
headers ["Part Number", "Status"] and candidates
["MfgNo", "Part Number"], the first candidate "MfgNo" matches nothing
and the resolver yields a header matching "Part Number". -/
theorem C7_get_col_witness :
    ∃ r, get_col (some [⟨S "Part Number", [S "p1"]⟩, ⟨S "Status", [S "ok"]⟩])
        [S "MfgNo", S "Part Number"] = some r ∧
      r ∈ [(⟨S "Part Number", [S "p1"]⟩ : Column),
        ⟨S "Status", [S "ok"]⟩].map Column.header ∧
      lowerStr r = lowerStr (S "Part Number") :=
  C7_get_col.2.2.2.1 [⟨S "Part Number", [S "p1"]⟩, ⟨S "Status", [S "ok"]⟩]
    [S "MfgNo"] (S "Part Number") [] (by decide) (by decide)
    ⟨⟨S "Part Number", [S "p1"]⟩, by decide⟩

/-- C9: Sheet Loader error handling: a missing or unreadable workbook
yields the tri-null "no data" result (and so does a workbook without
sheets, whose first-sheet fallback indexing raises inside the guarded
region); when the workbook loads but an optional sheet (Delivery Sets or
Projects Considered) is absent, the corresponding output is an empty
table — not a failure — and the other outputs are still produced. -/
theorem C9_load_data (sheets : List Sheet) (s0 : Sheet) (rest : List Sheet)
    (hs : sheets = s0 :: rest) :
    load_data none = (none, none, none) ∧
    load_data (some []) = (none, none, none) ∧
    ((∀ s ∈ sheets, hasSub (S "Delivery") s.name = false) →
      (load_data (some sheets)).2.1 = some [] ∧
      (load_data (some sheets)).1.isSome = true ∧
      (load_data (some sheets)).2.2.isSome = true) ∧
    ((∀ s ∈ sheets,
        (hasSub (S "Project") s.name && hasSub (S "Considered") s.name) = false) →
      (load_data (some sheets)).2.2 = some [] ∧
      (load_data (some sheets)).1.isSome = true ∧
      (load_data (some sheets)).2.1.isSome = true) := by
  subst hs
  refine ⟨rfl, rfl, ?_, ?_⟩
  · intro hdel
    have h1 : ((s0 :: rest).find? fun s =>
        hasSub (S "Set") s.name && hasSub (S "Delivery") s.name) = none := by
      rw [List.find?_eq_none]
      intro s hsm
      simp [hdel s hsm]
    have h2 : ((s0 :: rest).find? fun s => hasSub (S "Delivery") s.name) = none := by
      rw [List.find?_eq_none]
      intro s hsm
      simp [hdel s hsm]
    have hset : findSetSheet (s0 :: rest) = none := by
      unfold findSetSheet
      rw [h1, h2]
    refine ⟨?_, rfl, rfl⟩
    simp [load_data, hset, stripHeaders, clean, dfEmpty]
  · intro hproj
    have hp : findProjSheet (s0 :: rest) = none := by
      unfold findProjSheet
      rw [List.find?_eq_none]
      intro s hsm
      simp [hproj s hsm]
    refine ⟨?_, rfl, rfl⟩
    simp [load_data, hp, stripHeaders, clean, dfEmpty]

/-- C9 witness: a workbook holding only a Components sheet produces an
empty Delivery table and still produces the other two tables. -/
theorem C9_load_data_witness :
    (load_data (some [⟨S "Components", [⟨S "Name", [S "x"]⟩]⟩])).2.1 = some [] ∧
    (load_data (some [⟨S "Components", [⟨S "Name", [S "x"]⟩]⟩])).1.isSome = true ∧
    (load_data (some [⟨S "Components", [⟨S "Name", [S "x"]⟩]⟩])).2.2.isSome = true :=
  (C9_load_data [⟨S "Components", [⟨S "Name", [S "x"]⟩]⟩]
    ⟨S "Components", [⟨S "Name", [S "x"]⟩]⟩ [] rfl).2.2.1 (by decide)

end MechBI
